import Mathlib

/-!
Verification development for the fluxio C API example programs
(`capi/examples/client.c` and `capi/examples/upload.c`).

The development shallowly embeds:
* the non-blocking I/O adapter callbacks `read_cb` / `write_cb` and the
  waker-slot lifecycle of `struct conn_data`;
* the upload body producer `poll_req_upload`;
* the tag-dispatched continuation state machine (the `switch` bodies of the
  two `main` functions); and
* the drain/select executor loop skeleton shared by both programs.

The fluxio engine itself (executor, tasks, wakers) is external to the
repository; it appears here only as an oracle (a schedule of poll results and
of the adapter-callback invocations it performs), and, where a property
depends on it, as an explicitly stated contract taken from the specification.
Waker handles are modelled as numeric identities handed out by a counter, and
the set of allocated-but-not-freed handles is tracked explicitly so that leak
and replace-before-store properties can be stated.
-/

namespace Fluxio

/-- The `EAGAIN` errno value (Linux). Only its distinctness matters. -/
def EAGAIN : Nat := 11

/-- Outcome of the raw `read`/`write` syscall as seen by the adapter:
either `ret >= 0` bytes transferred, or `-1` with the given `errno`. -/
inductive SysRes where
  | ok (n : Nat)
  | err (errno : Nat)
deriving DecidableEq, Repr

/-- The three-valued result the adapter returns to the engine:
a byte count, the `FLUXIO_IO_ERROR` sentinel, or the `FLUXIO_IO_PENDING`
sentinel. -/
inductive IoRet where
  | bytes (n : Nat)
  | ioError
  | ioPending
deriving DecidableEq, Repr

/-- `struct conn_data`: one optional waker handle per direction
(the `fd` field plays no role in the adapter logic itself). -/
structure conn_data where
  read_waker : Option Nat
  write_waker : Option Nat
deriving DecidableEq, Repr

/-- Adapter-side state: the connection record, the list of waker handles that
have been created and not yet freed (`live`), and the counter producing the
identity of the next waker `fluxio_context_waker` hands out. -/
structure CbState where
  conn : conn_data
  live : List Nat
  nextId : Nat
deriving DecidableEq, Repr

/-- Initial state: both slots `NULL`, no live wakers. -/
def cbInit : CbState := ⟨⟨none, none⟩, [], 0⟩

/-- `read_cb` from `client.c`/`upload.c` (the two files are identical here):
`ret >= 0` returns the count; `errno != EAGAIN` returns `FLUXIO_IO_ERROR`;
otherwise the previously stored read waker (if any) is freed, a fresh waker
is taken from the poll context and stored, and `FLUXIO_IO_PENDING` is
returned. -/
def read_cb (s : CbState) (r : SysRes) : IoRet × CbState :=
  match r with
  | SysRes.ok n => (IoRet.bytes n, s)
  | SysRes.err e =>
    if e ≠ EAGAIN then
      (IoRet.ioError, s)
    else
      let live1 := match s.conn.read_waker with
        | some w => s.live.erase w
        | none => s.live
      (IoRet.ioPending,
        { conn := { s.conn with read_waker := some s.nextId },
          live := s.nextId :: live1,
          nextId := s.nextId + 1 })

/-- `write_cb`, symmetric to `read_cb` on the write-direction slot. -/
def write_cb (s : CbState) (r : SysRes) : IoRet × CbState :=
  match r with
  | SysRes.ok n => (IoRet.bytes n, s)
  | SysRes.err e =>
    if e ≠ EAGAIN then
      (IoRet.ioError, s)
    else
      let live1 := match s.conn.write_waker with
        | some w => s.live.erase w
        | none => s.live
      (IoRet.ioPending,
        { conn := { s.conn with write_waker := some s.nextId },
          live := s.nextId :: live1,
          nextId := s.nextId + 1 })

/-- Apply one adapter-callback invocation; `true` selects `read_cb`. -/
def applyCb (s : CbState) (c : Bool × SysRes) : CbState :=
  if c.1 then (read_cb s c.2).2 else (write_cb s c.2).2

/-- Apply a sequence of adapter-callback invocations in order. -/
def applyCbs (s : CbState) (cs : List (Bool × SysRes)) : CbState :=
  cs.foldl applyCb s

/-- The one-element (or empty) list a waker slot contributes to the live
set. -/
def optList : Option Nat → List Nat
  | some w => [w]
  | none => []

/-- Waker-lifecycle invariant: the unfreed wakers are exactly the occupants
of the two slots, slot occupants are below the freshness counter, and the two
slots never hold the same handle. -/
def WakerInv (s : CbState) : Prop :=
  s.live.Perm (optList s.conn.read_waker ++ optList s.conn.write_waker) ∧
  (∀ w, s.conn.read_waker = some w → w < s.nextId) ∧
  (∀ w, s.conn.write_waker = some w → w < s.nextId) ∧
  (∀ w w', s.conn.read_waker = some w → s.conn.write_waker = some w' → w ≠ w')

lemma wakerInv_init : WakerInv cbInit := by
  refine ⟨?_, ?_, ?_, ?_⟩ <;> simp [cbInit, optList]

lemma perm_erase_cons (l : List Nat) (old nw : Nat) (rest : List Nat)
    (h : l.Perm (old :: rest)) : (nw :: l.erase old).Perm (nw :: rest) := by
  have h1 := h.erase old
  rw [List.erase_cons_head] at h1
  exact h1.cons nw

lemma wakerInv_read_cb (s : CbState) (r : SysRes) (h : WakerInv s) :
    WakerInv (read_cb s r).2 := by
  obtain ⟨hperm, hrf, hwf, hdis⟩ := h
  cases r with
  | ok n => exact ⟨hperm, hrf, hwf, hdis⟩
  | err e =>
    by_cases he : e = EAGAIN
    · subst he
      simp only [read_cb]
      rw [if_neg (fun hc => hc rfl)]
      refine ⟨?_, ?_, ?_, ?_⟩
      · cases hr : s.conn.read_waker with
        | none =>
          rw [hr] at hperm
          simp only [optList, List.nil_append] at hperm
          simpa [optList] using hperm.cons s.nextId
        | some old =>
          rw [hr] at hperm
          cases hw0 : s.conn.write_waker with
          | none =>
            rw [hw0] at hperm
            simp only [optList, List.append_nil] at hperm
            simp only [hr, hw0, optList, List.append_nil]
            exact perm_erase_cons s.live old s.nextId [] hperm
          | some w' =>
            rw [hw0] at hperm
            simp only [optList, List.cons_append, List.nil_append] at hperm
            simp only [hr, hw0, optList, List.cons_append, List.nil_append]
            exact perm_erase_cons s.live old s.nextId [w'] hperm
      · intro w hw
        simp only [Option.some.injEq] at hw
        subst hw
        exact Nat.lt_succ_self _
      · intro w hw
        exact Nat.lt_succ_of_lt (hwf w hw)
      · intro w w' hw hw'
        simp only [Option.some.injEq] at hw
        have := hwf w' hw'
        omega
    · simp only [read_cb]
      rw [if_pos he]
      exact ⟨hperm, hrf, hwf, hdis⟩

lemma wakerInv_write_cb (s : CbState) (r : SysRes) (h : WakerInv s) :
    WakerInv (write_cb s r).2 := by
  obtain ⟨hperm, hrf, hwf, hdis⟩ := h
  cases r with
  | ok n => exact ⟨hperm, hrf, hwf, hdis⟩
  | err e =>
    by_cases he : e = EAGAIN
    · subst he
      simp only [write_cb]
      rw [if_neg (fun hc => hc rfl)]
      refine ⟨?_, ?_, ?_, ?_⟩
      · cases hw0 : s.conn.write_waker with
        | none =>
          rw [hw0] at hperm
          simp only [optList, List.append_nil] at hperm
          cases hr : s.conn.read_waker with
          | none =>
            rw [hr] at hperm
            simp only [optList] at hperm ⊢
            simpa using hperm.cons s.nextId
          | some rw' =>
            rw [hr] at hperm
            simp only [hr, hw0, optList, List.cons_append, List.nil_append] at hperm ⊢
            exact (hperm.cons s.nextId).trans (List.Perm.swap rw' s.nextId [])
        | some old =>
          rw [hw0] at hperm
          cases hr : s.conn.read_waker with
          | none =>
            rw [hr] at hperm
            simp only [hr, hw0, optList, List.nil_append] at hperm ⊢
            exact perm_erase_cons s.live old s.nextId [] hperm
          | some rw' =>
            rw [hr] at hperm
            simp only [hr, hw0, optList, List.cons_append, List.nil_append] at hperm ⊢
            have hne : rw' ≠ old := hdis rw' old hr hw0
            have hperm2 : s.live.Perm (old :: [rw']) :=
              hperm.trans (List.Perm.swap old rw' [])
            have h3 := perm_erase_cons s.live old s.nextId [rw'] hperm2
            exact h3.trans (List.Perm.swap rw' s.nextId [])
      · intro w hw
        exact Nat.lt_succ_of_lt (hrf w hw)
      · intro w hw
        simp only [Option.some.injEq] at hw
        subst hw
        exact Nat.lt_succ_self _
      · intro w w' hw hw'
        simp only [Option.some.injEq] at hw'
        have := hrf w hw
        omega
    · simp only [write_cb]
      rw [if_pos he]
      exact ⟨hperm, hrf, hwf, hdis⟩

lemma wakerInv_applyCb (s : CbState) (c : Bool × SysRes) (h : WakerInv s) :
    WakerInv (applyCb s c) := by
  unfold applyCb
  by_cases hb : c.1
  · simp only [hb, if_true]; exact wakerInv_read_cb s c.2 h
  · simp only [hb, if_false]; exact wakerInv_write_cb s c.2 h

lemma wakerInv_applyCbs (cs : List (Bool × SysRes)) :
    ∀ s : CbState, WakerInv s → WakerInv (applyCbs s cs) := by
  induction cs with
  | nil => intro s h; exact h
  | cons c rest ih =>
    intro s h
    have h1 : applyCbs s (c :: rest) = applyCbs (applyCb s c) rest := rfl
    rw [h1]
    exact ih _ (wakerInv_applyCb s c h)

/-- C1. After any sequence of adapter-callback invocations (in particular any
sequence of would-block returns), the unfreed waker handles are, up to order,
exactly the occupants of the two per-direction slots — so no replaced handle
stays live (replacement frees the old handle before the new one is stored),
and each direction accounts for at most one live handle. -/
theorem claim1_waker_slots_no_leak (seq : List (Bool × SysRes)) :
    (applyCbs cbInit seq).live.Perm
      (optList (applyCbs cbInit seq).conn.read_waker ++
        optList (applyCbs cbInit seq).conn.write_waker) ∧
    (optList (applyCbs cbInit seq).conn.read_waker).length ≤ 1 ∧
    (optList (applyCbs cbInit seq).conn.write_waker).length ≤ 1 := by
  have h := wakerInv_applyCbs seq cbInit wakerInv_init
  refine ⟨h.1, ?_, ?_⟩
  · cases (applyCbs cbInit seq).conn.read_waker <;> simp [optList]
  · cases (applyCbs cbInit seq).conn.write_waker <;> simp [optList]

/-- C3. The read callback contract: a successful transfer of `n` bytes
returns `n` unchanged (zero included); a failure with `errno ≠ EAGAIN`
returns the `FLUXIO_IO_ERROR` sentinel with the state untouched (no retry);
a would-block failure stores a fresh waker (the next unused identity) in the
read slot and returns the `FLUXIO_IO_PENDING` sentinel. -/
theorem claim3_read_cb_contract (s : CbState) (n e : Nat) (he : e ≠ EAGAIN) :
    read_cb s (SysRes.ok n) = (IoRet.bytes n, s) ∧
    read_cb s (SysRes.err e) = (IoRet.ioError, s) ∧
    (read_cb s (SysRes.err EAGAIN)).1 = IoRet.ioPending ∧
    (read_cb s (SysRes.err EAGAIN)).2.conn.read_waker = some s.nextId ∧
    (read_cb s (SysRes.err EAGAIN)).2.nextId = s.nextId + 1 ∧
    write_cb s (SysRes.ok n) = (IoRet.bytes n, s) ∧
    write_cb s (SysRes.err e) = (IoRet.ioError, s) ∧
    (write_cb s (SysRes.err EAGAIN)).1 = IoRet.ioPending ∧
    (write_cb s (SysRes.err EAGAIN)).2.conn.write_waker = some s.nextId ∧
    (write_cb s (SysRes.err EAGAIN)).2.nextId = s.nextId + 1 := by
  refine ⟨rfl, ?_, ?_, ?_, ?_, rfl, ?_, ?_, ?_, ?_⟩
  · simp [read_cb, he]
  · simp [read_cb]
  · simp [read_cb]
  · simp [read_cb]
  · simp [write_cb, he]
  · simp [write_cb]
  · simp [write_cb]
  · simp [write_cb]

/-- Witness for C3 at a concrete state and errno. -/
theorem claim3_witness :
    (104 ≠ EAGAIN) ∧
    (read_cb cbInit (SysRes.ok 5) = (IoRet.bytes 5, cbInit) ∧
     read_cb cbInit (SysRes.err 104) = (IoRet.ioError, cbInit) ∧
     (read_cb cbInit (SysRes.err EAGAIN)).1 = IoRet.ioPending ∧
     (read_cb cbInit (SysRes.err EAGAIN)).2.conn.read_waker = some cbInit.nextId ∧
     (read_cb cbInit (SysRes.err EAGAIN)).2.nextId = cbInit.nextId + 1 ∧
     write_cb cbInit (SysRes.ok 5) = (IoRet.bytes 5, cbInit) ∧
     write_cb cbInit (SysRes.err 104) = (IoRet.ioError, cbInit) ∧
     (write_cb cbInit (SysRes.err EAGAIN)).1 = IoRet.ioPending ∧
     (write_cb cbInit (SysRes.err EAGAIN)).2.conn.write_waker = some cbInit.nextId ∧
     (write_cb cbInit (SysRes.err EAGAIN)).2.nextId = cbInit.nextId + 1) :=
  ⟨by decide, claim3_read_cb_contract cbInit 5 104 (by decide)⟩

/-! ## Upload body producer (`upload.c`, `poll_req_upload`) -/

/-- Outcome of the synchronous `read` from the upload source file:
`res > 0` or `res == 0` delivers the (possibly empty) list of bytes read,
`res < 0` carries the errno. -/
inductive UpRead where
  | ok (bytes : List Nat)
  | fail (errno : Nat)
deriving DecidableEq, Repr

/-- The producer's return value: `FLUXIO_POLL_READY` or `FLUXIO_POLL_ERROR`. -/
inductive PollRet where
  | ready
  | pollError
deriving DecidableEq, Repr

/-- `poll_req_upload` from `upload.c`: `res > 0` copies the bytes read into a
fresh chunk and reports ready; `res == 0` reports ready with a `NULL` chunk
(end of stream); a failed read reports `FLUXIO_POLL_ERROR` (and sets no
chunk). -/
def poll_req_upload : UpRead → PollRet × Option (List Nat)
  | UpRead.ok bytes =>
    if 0 < bytes.length then (PollRet.ready, some bytes)
    else (PollRet.ready, none)
  | UpRead.fail _ => (PollRet.pollError, none)

/-- `read(upload->fd, upload->buf, upload->len)` on a healthy regular file
with `content` left to deliver: returns the next `min(B, |content|)` bytes. -/
def fileRead (B : Nat) (content : List Nat) : UpRead :=
  UpRead.ok (content.take B)

/-- Modelled from the spec: the fluxio engine (not under `src/`) "polls the
producer repeatedly; each poll yields a chunk, an end-of-stream marker, or an
error" — this iterates `poll_req_upload` over the remaining file content,
collecting each poll's chunk until the end-of-stream (`none`) result. -/
def uploadRun (B : Nat) (content : List Nat) : List (Option (List Nat)) :=
  match h : poll_req_upload (fileRead B content) with
  | (PollRet.ready, some _) => some (content.take B) :: uploadRun B (content.drop B)
  | (PollRet.ready, none) => [none]
  | (PollRet.pollError, _) => []
termination_by content.length
decreasing_by
  simp only [fileRead, poll_req_upload] at h
  split at h
  · rename_i hlen
    simp only [List.length_take] at hlen
    simp only [List.length_drop]
    omega
  · simp at h

lemma uploadRun_nil (B : Nat) : uploadRun B [] = [none] := by
  rw [uploadRun]
  split <;> rename_i heq
  · simp [poll_req_upload, fileRead] at heq
  · rfl
  · simp [poll_req_upload, fileRead] at heq

lemma uploadRun_cons (B : Nat) (content : List Nat) (hB : 0 < B)
    (hc : content ≠ []) :
    uploadRun B content = some (content.take B) :: uploadRun B (content.drop B) := by
  have hlen : 0 < (content.take B).length := by
    simp only [List.length_take]
    have : 0 < content.length := List.length_pos.mpr hc
    omega
  rw [uploadRun]
  split <;> rename_i heq
  · rfl
  · simp [poll_req_upload, fileRead, hlen] at heq
    exact absurd (heq hB) hc
  · simp only [poll_req_upload, fileRead] at heq
    split at heq <;> simp at heq

lemma ceil_div_step (B L : Nat) (hB : 0 < B) (hL : 0 < L) :
    (L - B + B - 1) / B + 1 = (L + B - 1) / B := by
  have hr : L + B - 1 = (L - 1) + B := by omega
  rw [hr, Nat.add_div_right _ hB]
  by_cases hLB : L ≤ B
  · have h0 : L - B = 0 := by omega
    rw [h0]
    have h1 : (L - 1) / B = 0 := Nat.div_eq_of_lt (by omega)
    have h2 : (0 + B - 1) / B = 0 := Nat.div_eq_of_lt (by omega)
    omega
  · have h3 : L - B + B - 1 = L - 1 := by omega
    rw [h3]

lemma uploadRun_spec_aux (B : Nat) (hB : 0 < B) :
    ∀ (n : Nat) (content : List Nat), content.length ≤ n →
      ∃ chunks : List (List Nat),
        uploadRun B content = chunks.map some ++ [none] ∧
        chunks.length = (content.length + B - 1) / B ∧
        chunks.flatten = content ∧
        ∀ c ∈ chunks, c ≠ [] := by
  intro n
  induction n with
  | zero =>
    intro content hlen
    have hc : content = [] := List.eq_nil_of_length_eq_zero (Nat.le_zero.mp hlen)
    subst hc
    refine ⟨[], by simp [uploadRun_nil], ?_, by simp, by simp⟩
    have : (0 + B - 1) / B = 0 := Nat.div_eq_of_lt (by omega)
    simpa using this.symm
  | succ n ih =>
    intro content hlen
    by_cases hc : content = []
    · subst hc
      refine ⟨[], by simp [uploadRun_nil], ?_, by simp, by simp⟩
      have : (0 + B - 1) / B = 0 := Nat.div_eq_of_lt (by omega)
      simpa using this.symm
    · rw [uploadRun_cons B content hB hc]
      have hpos : 0 < content.length := List.length_pos.mpr hc
      have hdrop : (content.drop B).length ≤ n := by
        simp only [List.length_drop]
        omega
      obtain ⟨chunks, h1, h2, h3, h4⟩ := ih (content.drop B) hdrop
      refine ⟨content.take B :: chunks, ?_, ?_, ?_, ?_⟩
      · simp [h1]
      · simp only [List.length_cons, h2, List.length_drop]
        exact ceil_div_step B content.length hB hpos
      · simp [h3]
      · intro c hcmem
        rcases List.mem_cons.mp hcmem with h | h
        · subst h
          intro hnil
          rcases List.take_eq_nil_iff.mp hnil with h' | h'

          · omega
          · exact hc h'
        · exact h4 c h

/-- C5. For an upload source of `L` bytes read through a scratch buffer of
size `B > 0`, the producer yields exactly `⌈L/B⌉` non-empty chunk results
followed by exactly one end-of-stream result, and the chunks concatenate back
to the original bytes. -/
theorem claim5_upload_roundtrip (B : Nat) (hB : 0 < B) (content : List Nat) :
    ∃ chunks : List (List Nat),
      uploadRun B content = chunks.map some ++ [none] ∧
      chunks.length = (content.length + B - 1) / B ∧
      chunks.flatten = content ∧
      ∀ c ∈ chunks, c ≠ [] :=
  uploadRun_spec_aux B hB content.length content le_rfl

/-- Witness for C5 at `B = 2` over a 5-byte file. -/
theorem claim5_witness :
    0 < 2 ∧
    ∃ chunks : List (List Nat),
      uploadRun 2 [10, 11, 12, 13, 14] = chunks.map some ++ [none] ∧
      chunks.length = ([10, 11, 12, 13, 14].length + 2 - 1) / 2 ∧
      chunks.flatten = [10, 11, 12, 13, 14] ∧
      ∀ c ∈ chunks, c ≠ [] :=
  ⟨by decide, claim5_upload_roundtrip 2 (by decide) [10, 11, 12, 13, 14]⟩

/-- C6. One poll of the upload producer: a read delivering bytes reports
ready with those bytes copied into a new chunk; a read of zero bytes reports
ready with a `NULL` chunk (end of stream); a failed read reports the
`FLUXIO_POLL_ERROR` sentinel. -/
theorem claim6_poll_req_upload_contract (bytes : List Nat) (e : Nat)
    (hb : bytes ≠ []) :
    poll_req_upload (UpRead.ok bytes) = (PollRet.ready, some bytes) ∧
    poll_req_upload (UpRead.ok []) = (PollRet.ready, none) ∧
    poll_req_upload (UpRead.fail e) = (PollRet.pollError, none) := by
  refine ⟨?_, by simp [poll_req_upload], rfl⟩
  simp [poll_req_upload, List.length_pos.mpr hb]

/-- Witness for C6 at a one-byte read and errno 5. -/
theorem claim6_witness :
    ([7] : List Nat) ≠ [] ∧
    (poll_req_upload (UpRead.ok [7]) = (PollRet.ready, some [7]) ∧
     poll_req_upload (UpRead.ok []) = (PollRet.ready, none) ∧
     poll_req_upload (UpRead.fail 5) = (PollRet.pollError, none)) :=
  ⟨by decide, claim6_poll_req_upload_contract [7] 5 (by decide)⟩

/-! ## Continuation dispatcher and executor loop (`main` of both programs)

The engine is an oracle: a schedule records, for each `fluxio_executor_poll`
call, which adapter callbacks the engine invoked during that poll and which
completed task (if any) the poll returned, and, for each `select` call, which
directions the readiness source reported.  The loop body, the tag `switch`
dispatch, the `FD_SET` interest-set construction and the waker firing are
embedded from the source. -/

/-- The `example_id` continuation tags. -/
inductive Tag where
  | notSet
  | handshake
  | send
  | respBody
deriving DecidableEq, Repr

/-- `fluxio_task_type` results relevant to the examples. -/
inductive TaskType where
  | taskError
  | taskClientconn
  | taskResponse
  | taskEmpty
  | taskBuf
deriving DecidableEq, Repr

/-- A completed task as the drain loop sees it: its continuation tag
(`fluxio_task_userdata`), its payload type, and — when the payload is an
error — the numeric error code carried by the error object. -/
structure PolledTask where
  tag : Tag
  ty : TaskType
  code : Nat
deriving DecidableEq, Repr

/-- The messages the programs write to standard output (modulo incidental
formatting). `errCodeM` carries the numeric engine error code. -/
inductive OutMsg where
  | handshakeErrM
  | sendErrM
  | bodyErrM
  | errCodeM (c : Nat)
  | errDetailsM
  | preparingM
  | sendingM
  | respStatusM
  | headersM
  | chunkDataM
  | doneM
  | selectErrM
deriving DecidableEq, Repr

/-- Observable events of a run: executor polls, task pushes, prints,
resource releases, `select` calls (with the interest set passed and the waker
slots at that moment) and waker firings (with the slot contents passed to
`fluxio_waker_wake`). -/
inductive Event where
  | polled (r : Option PolledTask)
  | pushed (t : Tag)
  | print (m : OutMsg)
  | freeTask
  | freeErr
  | freeClient
  | freeResp
  | freeBody
  | freeBuf
  | freeExec
  | freeConn
  | freeUploadBuf
  | selectCall (ir iw : Bool) (sr sw : Option Nat)
  | wake (isRead : Bool) (slot : Option Nat)
deriving DecidableEq, Repr

/-- How a run ends: `exit(n)` / `return n`, or an `assert` abort. -/
inductive ExitRes where
  | code (n : Nat)
  | abort
deriving DecidableEq, Repr

/-- Result of dispatching one completed task: the events of the `switch`
branch and whether the branch left `main` (and how). -/
structure DispResult where
  events : List Event
  exit : Option ExitRes
deriving DecidableEq, Repr

/-- The `switch ((example_id)fluxio_task_userdata(task))` body of
`client.c` `main`. Error-typed tasks at the tracked tags extract the error,
jump to `fail` (print code and details, free the error object, `return 1`);
success paths free the consumed task/handles and push the follow-up task;
unexpected payload types hit an `assert`. -/
def dispatchClient (t : PolledTask) : DispResult :=
  match t.tag with
  | Tag.handshake =>
    match t.ty with
    | TaskType.taskError =>
      ⟨[Event.print OutMsg.handshakeErrM, Event.print (OutMsg.errCodeM t.code),
        Event.print OutMsg.errDetailsM, Event.freeErr], some (ExitRes.code 1)⟩
    | TaskType.taskClientconn =>
      ⟨[Event.print OutMsg.preparingM, Event.freeTask, Event.print OutMsg.sendingM,
        Event.pushed Tag.send, Event.freeClient], none⟩
    | _ => ⟨[], some ExitRes.abort⟩
  | Tag.send =>
    match t.ty with
    | TaskType.taskError =>
      ⟨[Event.print OutMsg.sendErrM, Event.print (OutMsg.errCodeM t.code),
        Event.print OutMsg.errDetailsM, Event.freeErr], some (ExitRes.code 1)⟩
    | TaskType.taskResponse =>
      ⟨[Event.freeTask, Event.print OutMsg.respStatusM, Event.print OutMsg.headersM,
        Event.pushed Tag.respBody, Event.freeResp], none⟩
    | _ => ⟨[], some ExitRes.abort⟩
  | Tag.respBody =>
    match t.ty with
    | TaskType.taskError =>
      ⟨[Event.print OutMsg.bodyErrM, Event.print (OutMsg.errCodeM t.code),
        Event.print OutMsg.errDetailsM, Event.freeErr], some (ExitRes.code 1)⟩
    | TaskType.taskEmpty =>
      ⟨[Event.print OutMsg.doneM, Event.freeTask, Event.freeExec, Event.freeConn],
        some (ExitRes.code 0)⟩
    | _ => ⟨[], some ExitRes.abort⟩
  | Tag.notSet => ⟨[Event.freeTask], none⟩

/-- The `switch` body of `upload.c` `main`. Error-typed tasks at the
tracked tags print a phase message and `return 1` directly (no error object
is extracted and nothing is freed); the incremental body loop re-pushes a
chunk-pull task after each delivered chunk. -/
def dispatchUpload (t : PolledTask) : DispResult :=
  match t.tag with
  | Tag.handshake =>
    match t.ty with
    | TaskType.taskError =>
      ⟨[Event.print OutMsg.handshakeErrM], some (ExitRes.code 1)⟩
    | TaskType.taskClientconn =>
      ⟨[Event.print OutMsg.preparingM, Event.freeTask, Event.print OutMsg.sendingM,
        Event.pushed Tag.send, Event.freeClient], none⟩
    | _ => ⟨[], some ExitRes.abort⟩
  | Tag.send =>
    match t.ty with
    | TaskType.taskError =>
      ⟨[Event.print OutMsg.sendErrM], some (ExitRes.code 1)⟩
    | TaskType.taskResponse =>
      ⟨[Event.freeTask, Event.print OutMsg.respStatusM, Event.print OutMsg.headersM,
        Event.pushed Tag.respBody, Event.freeResp], none⟩
    | _ => ⟨[], some ExitRes.abort⟩
  | Tag.respBody =>
    match t.ty with
    | TaskType.taskError =>
      ⟨[Event.print OutMsg.bodyErrM], some (ExitRes.code 1)⟩
    | TaskType.taskBuf =>
      ⟨[Event.print OutMsg.chunkDataM, Event.freeBuf, Event.freeTask,
        Event.pushed Tag.respBody], none⟩
    | TaskType.taskEmpty =>
      ⟨[Event.freeTask, Event.freeBody, Event.print OutMsg.doneM, Event.freeExec,
        Event.freeConn, Event.freeUploadBuf], some (ExitRes.code 0)⟩
    | _ => ⟨[], some ExitRes.abort⟩
  | Tag.notSet => ⟨[Event.freeTask], none⟩

/-- One entry of the drain schedule: the adapter callbacks the engine ran
during this `fluxio_executor_poll` call, and the completed task the poll
returned. -/
structure DrainEntry where
  cbs : List (Bool × SysRes)
  task : PolledTask
deriving DecidableEq, Repr

/-- One iteration of the outer loop in the oracle's view: the polls that
returned a task, the callbacks run during the final poll that returned
`NULL`, and the readiness report of the following `select` call. -/
structure Round where
  drain : List DrainEntry
  quiesceCbs : List (Bool × SysRes)
  selRead : Bool
  selWrite : Bool
  selErr : Bool
deriving DecidableEq, Repr

/-- Outcome of (a prefix of) a run: final adapter state, the event trace,
and the exit, if the program left `main`. -/
structure RunOut where
  state : CbState
  events : List Event
  exit : Option ExitRes

/-- The inner drain loop: poll, dispatch, repeat — stopping early when a
dispatch branch leaves `main`. -/
def runDrain (disp : PolledTask → DispResult) (s : CbState) :
    List DrainEntry → RunOut
  | [] => ⟨s, [], none⟩
  | e :: rest =>
    let s1 := applyCbs s e.cbs
    let d := disp e.task
    match d.exit with
    | some x => ⟨s1, Event.polled (some e.task) :: d.events, some x⟩
    | none =>
      let r := runDrain disp s1 rest
      ⟨r.state, Event.polled (some e.task) :: (d.events ++ r.events), r.exit⟩

/-- `fluxio_waker_wake(conn->read_waker)` / `(conn->write_waker)` followed by
clearing the slot. The `wake` event records the pointer passed to the engine;
waking consumes the handle, so it leaves the live set. -/
def fire (isRead : Bool) (s : CbState) : CbState × List Event :=
  let slot := if isRead then s.conn.read_waker else s.conn.write_waker
  match slot with
  | some w =>
    (⟨if isRead then { s.conn with read_waker := none }
      else { s.conn with write_waker := none },
      s.live.erase w, s.nextId⟩, [Event.wake isRead (some w)])
  | none => (s, [Event.wake isRead none])

/-- The wait phase: `FD_ZERO` both sets, `FD_SET(conn->fd, ...)` for each
direction whose waker slot is non-`NULL`, call `select`; on `select` error
print and `return 1`; otherwise fire (and clear) the waker of each direction
`select` reported — `FD_ISSET` can hold only for descriptors that were in
the corresponding input set. -/
def selectPhase (s : CbState) (selR selW selErr : Bool) :
    CbState × List Event × Option ExitRes :=
  let ir := s.conn.read_waker.isSome
  let iw := s.conn.write_waker.isSome
  let ev0 := Event.selectCall ir iw s.conn.read_waker s.conn.write_waker
  if selErr then
    (s, [ev0, Event.print OutMsg.selectErrM], some (ExitRes.code 1))
  else
    let rReady := selR && ir
    let wReady := selW && iw
    let p1 := if rReady then fire true s else (s, [])
    let p2 := if wReady then fire false p1.1 else (p1.1, [])
    (p2.1, ev0 :: (p1.2 ++ p2.2), none)

/-- The outer polling state machine: drain, then (if still inside `main`)
the `select` wait phase, then loop. -/
def runRounds (disp : PolledTask → DispResult) (s : CbState) :
    List Round → RunOut
  | [] => ⟨s, [], none⟩
  | r :: rest =>
    let d := runDrain disp s r.drain
    match d.exit with
    | some x => ⟨d.state, d.events, some x⟩
    | none =>
      let s2 := applyCbs d.state r.quiesceCbs
      let sp := selectPhase s2 r.selRead r.selWrite r.selErr
      match sp.2.2 with
      | some x => ⟨sp.1, d.events ++ (Event.polled none :: sp.2.1), some x⟩
      | none =>
        let rr := runRounds disp sp.1 rest
        ⟨rr.state, d.events ++ (Event.polled none :: (sp.2.1 ++ rr.events)),
          rr.exit⟩

/-- The `client.c` main loop. -/
def runClient (s : CbState) (rs : List Round) : RunOut :=
  runRounds dispatchClient s rs

/-- The `upload.c` main loop. -/
def runUpload (s : CbState) (rs : List Round) : RunOut :=
  runRounds dispatchUpload s rs

/-! ## Trace checkers -/

/-- Is this event a `select` call? -/
def isSelect : Event → Bool
  | Event.selectCall _ _ _ _ => true
  | _ => false

/-- No event of the list is a `select` call. -/
def noSelectE (evs : List Event) : Bool :=
  evs.all (fun e => !isSelect e)

/-- Every `select` call in the list is immediately preceded by a poll that
returned no task (`prev` is the event immediately before the list, if any). -/
def selAfterNone : List Event → Option Event → Bool
  | [], _ => true
  | e :: rest, prev =>
    ((!isSelect e) || (prev == some (Event.polled none))) &&
      selAfterNone rest (some e)

/-- The last event of `l`, or `p` when `l` is empty. -/
def lastOpt : List Event → Option Event → Option Event
  | [], p => p
  | e :: rest, _ => lastOpt rest (some e)

/-- The interest set passed to `select` names exactly the directions whose
waker slot is occupied. -/
def selectInterestOk : Event → Bool
  | Event.selectCall ir iw sr sw => (ir == sr.isSome) && (iw == sw.isSome)
  | _ => true

/-- The interest set passed to `select` is non-empty. -/
def selectGuard : Event → Bool
  | Event.selectCall ir iw _ _ => ir || iw
  | _ => true

/-- Engine quiescence contract (spec §4.1–4.2): when the executor reports no
ready task and the loop is about to wait, some direction holds a live
waker. -/
def engineQuiesced : Event → Bool
  | Event.selectCall _ _ sr sw => sr.isSome || sw.isSome
  | _ => true

/-- `fluxio_waker_wake` is only ever handed a non-`NULL` waker. -/
def wakeLive : Event → Bool
  | Event.wake _ slot => slot.isSome
  | _ => true

lemma selAfterNone_append (xs ys : List Event) (p : Option Event) :
    selAfterNone (xs ++ ys) p =
      (selAfterNone xs p && selAfterNone ys (lastOpt xs p)) := by
  induction xs generalizing p with
  | nil => simp [selAfterNone, lastOpt]
  | cons e rest ih =>
    simp [selAfterNone, lastOpt, ih, Bool.and_assoc]

lemma selAfterNone_of_noSelectE (xs : List Event) (h : noSelectE xs = true)
    (p : Option Event) : selAfterNone xs p = true := by
  induction xs generalizing p with
  | nil => rfl
  | cons e rest ih =>
    simp only [noSelectE, List.all_cons, Bool.and_eq_true] at h
    simp only [selAfterNone, Bool.and_eq_true]
    refine ⟨?_, ih (by simpa [noSelectE] using h.2) (some e)⟩
    simp [h.1]

lemma noSelectE_dispatchClient (t : PolledTask) :
    noSelectE (dispatchClient t).events = true := by
  obtain ⟨tg, ty, c⟩ := t
  cases tg <;> cases ty <;> simp [dispatchClient, noSelectE, isSelect]

lemma noSelectE_dispatchUpload (t : PolledTask) :
    noSelectE (dispatchUpload t).events = true := by
  obtain ⟨tg, ty, c⟩ := t
  cases tg <;> cases ty <;> simp [dispatchUpload, noSelectE, isSelect]

lemma runDrain_noSelect (disp : PolledTask → DispResult)
    (hd : ∀ t, noSelectE (disp t).events = true) :
    ∀ (entries : List DrainEntry) (s : CbState),
      noSelectE (runDrain disp s entries).events = true := by
  intro entries
  induction entries with
  | nil => intro s; rfl
  | cons e rest ih =>
    intro s
    simp only [runDrain]
    split
    · simp only [noSelectE, List.all_cons, Bool.and_eq_true]
      exact ⟨rfl, by simpa [noSelectE] using hd e.task⟩
    · simp only [noSelectE, List.all_cons, List.all_append, Bool.and_eq_true]
      refine ⟨rfl, ?_, ?_⟩
      · simpa [noSelectE] using hd e.task
      · simpa [noSelectE] using ih (applyCbs s e.cbs)

lemma runDrain_all (P : Event → Bool) (disp : PolledTask → DispResult)
    (hd : ∀ t, ((disp t).events.all P) = true)
    (hpolled : ∀ r, P (Event.polled r) = true) :
    ∀ (entries : List DrainEntry) (s : CbState),
      (((runDrain disp s entries).events).all P) = true := by
  intro entries
  induction entries with
  | nil => intro s; rfl
  | cons e rest ih =>
    intro s
    simp only [runDrain]
    split
    · simp only [List.all_cons, Bool.and_eq_true]
      exact ⟨hpolled _, hd e.task⟩
    · simp only [List.all_cons, List.all_append, Bool.and_eq_true]
      exact ⟨hpolled _, hd e.task, ih (applyCbs s e.cbs)⟩

lemma selectPhase_selAfterNone_core (s : CbState) (a b c : Bool) :
    selAfterNone ((selectPhase s a b c).2.1) (some (Event.polled none)) = true := by
  cases hr : s.conn.read_waker <;> cases hw : s.conn.write_waker <;>
    cases a <;> cases b <;> cases c <;>
      simp [selectPhase, fire, hr, hw, selAfterNone, isSelect]

lemma selectPhase_interest (s : CbState) (a b c : Bool) :
    (((selectPhase s a b c).2.1).all selectInterestOk) = true := by
  cases hr : s.conn.read_waker <;> cases hw : s.conn.write_waker <;>
    cases a <;> cases b <;> cases c <;>
      simp [selectPhase, fire, hr, hw, selectInterestOk]

lemma selectPhase_wakeLive (s : CbState) (a b c : Bool) :
    (((selectPhase s a b c).2.1).all wakeLive) = true := by
  cases hr : s.conn.read_waker <;> cases hw : s.conn.write_waker <;>
    cases a <;> cases b <;> cases c <;>
      simp [selectPhase, fire, hr, hw, wakeLive]

lemma runRounds_selAfterNone (disp : PolledTask → DispResult)
    (hd : ∀ t, noSelectE (disp t).events = true) :
    ∀ (rs : List Round) (s : CbState) (p : Option Event),
      selAfterNone (runRounds disp s rs).events p = true := by
  intro rs
  induction rs with
  | nil => intro s p; rfl
  | cons r rest ih =>
    intro s p
    simp only [runRounds]
    split
    · exact selAfterNone_of_noSelectE _ (runDrain_noSelect disp hd r.drain s) p
    · split
      · rw [selAfterNone_append, Bool.and_eq_true]
        refine ⟨selAfterNone_of_noSelectE _ (runDrain_noSelect disp hd r.drain s) p, ?_⟩
        simp only [selAfterNone, isSelect, Bool.not_false, Bool.true_or, Bool.true_and]
        exact selectPhase_selAfterNone_core _ _ _ _
      · rw [selAfterNone_append, Bool.and_eq_true]
        refine ⟨selAfterNone_of_noSelectE _ (runDrain_noSelect disp hd r.drain s) p, ?_⟩
        simp only [selAfterNone, isSelect, Bool.not_false, Bool.true_or, Bool.true_and]
        rw [selAfterNone_append, Bool.and_eq_true]
        exact ⟨selectPhase_selAfterNone_core _ _ _ _, ih _ _⟩

lemma runRounds_all (P : Event → Bool) (disp : PolledTask → DispResult)
    (hd : ∀ t, ((disp t).events.all P) = true)
    (hpolled : ∀ r, P (Event.polled r) = true)
    (hselp : ∀ (st : CbState) (a b c : Bool),
      (((selectPhase st a b c).2.1).all P) = true) :
    ∀ (rs : List Round) (s : CbState),
      (((runRounds disp s rs).events).all P) = true := by
  intro rs
  induction rs with
  | nil => intro s; rfl
  | cons r rest ih =>
    intro s
    simp only [runRounds]
    split
    · exact runDrain_all P disp hd hpolled r.drain s
    · split
      · simp only [List.all_append, List.all_cons, Bool.and_eq_true]
        exact ⟨runDrain_all P disp hd hpolled r.drain s, hpolled none, hselp _ _ _ _⟩
      · simp only [List.all_append, List.all_cons, Bool.and_eq_true]
        exact ⟨runDrain_all P disp hd hpolled r.drain s, hpolled none,
          hselp _ _ _ _, ih _⟩

lemma dispatchClient_all_interest (t : PolledTask) :
    (((dispatchClient t).events).all selectInterestOk) = true := by
  obtain ⟨tg, ty, c⟩ := t
  cases tg <;> cases ty <;> simp [dispatchClient, selectInterestOk]

lemma dispatchUpload_all_interest (t : PolledTask) :
    (((dispatchUpload t).events).all selectInterestOk) = true := by
  obtain ⟨tg, ty, c⟩ := t
  cases tg <;> cases ty <;> simp [dispatchUpload, selectInterestOk]

lemma dispatchClient_all_wakeLive (t : PolledTask) :
    (((dispatchClient t).events).all wakeLive) = true := by
  obtain ⟨tg, ty, c⟩ := t
  cases tg <;> cases ty <;> simp [dispatchClient, wakeLive]

lemma dispatchUpload_all_wakeLive (t : PolledTask) :
    (((dispatchUpload t).events).all wakeLive) = true := by
  obtain ⟨tg, ty, c⟩ := t
  cases tg <;> cases ty <;> simp [dispatchUpload, wakeLive]

lemma selectGuard_of (e : Event) (h1 : engineQuiesced e = true)
    (h2 : selectInterestOk e = true) : selectGuard e = true := by
  cases e <;> simp_all [engineQuiesced, selectInterestOk, selectGuard]

lemma all_selectGuard (l : List Event) (h1 : l.all engineQuiesced = true)
    (h2 : l.all selectInterestOk = true) : l.all selectGuard = true := by
  rw [List.all_eq_true] at h1 h2 ⊢
  intro e he
  exact selectGuard_of e (h1 e he) (h2 e he)

lemma selectPhase_clear_read (c : CbState) (a b : Bool) :
    (selectPhase c a b false).1.conn.read_waker
      = (if a && c.conn.read_waker.isSome then none else c.conn.read_waker) := by
  cases hr : c.conn.read_waker <;> cases hw : c.conn.write_waker <;>
    cases a <;> cases b <;> simp [selectPhase, fire, hr, hw]

lemma selectPhase_clear_write (c : CbState) (a b : Bool) :
    (selectPhase c a b false).1.conn.write_waker
      = (if b && c.conn.write_waker.isSome then none else c.conn.write_waker) := by
  cases hr : c.conn.read_waker <;> cases hw : c.conn.write_waker <;>
    cases a <;> cases b <;> simp [selectPhase, fire, hr, hw]

/-- C2. In every iteration of the outer loop of either program, the inner
drain loop polls the executor until it returns `NULL` before control reaches
the `select` call: in every run trace, a `select` event is immediately
preceded by a poll that returned no task. -/
theorem claim2_drain_before_wait (s : CbState) (rs : List Round) :
    selAfterNone (runClient s rs).events none = true ∧
    selAfterNone (runUpload s rs).events none = true :=
  ⟨runRounds_selAfterNone dispatchClient noSelectE_dispatchClient rs s none,
   runRounds_selAfterNone dispatchUpload noSelectE_dispatchUpload rs s none⟩

/-- C4. Under the engine quiescence contract (spec §4.1–§4.2: when the
executor reports no ready task, some direction holds a live waker — the
engine itself is not under `src/`), every `select` call of either program is
entered with no completed task pending (immediately after a `NULL` poll),
its interest set names exactly the directions with an occupied waker slot,
and that interest set is non-empty. -/
theorem claim4_wait_guard_interest (s : CbState) (rs : List Round)
    (hc : ((runClient s rs).events.all engineQuiesced) = true)
    (hu : ((runUpload s rs).events.all engineQuiesced) = true) :
    (((runClient s rs).events.all selectInterestOk) = true ∧
     ((runClient s rs).events.all selectGuard) = true ∧
     selAfterNone (runClient s rs).events none = true) ∧
    (((runUpload s rs).events.all selectInterestOk) = true ∧
     ((runUpload s rs).events.all selectGuard) = true ∧
     selAfterNone (runUpload s rs).events none = true) := by
  have hci : ((runClient s rs).events.all selectInterestOk) = true :=
    runRounds_all selectInterestOk dispatchClient dispatchClient_all_interest
      (fun _ => rfl) selectPhase_interest rs s
  have hui : ((runUpload s rs).events.all selectInterestOk) = true :=
    runRounds_all selectInterestOk dispatchUpload dispatchUpload_all_interest
      (fun _ => rfl) selectPhase_interest rs s
  refine ⟨⟨hci, all_selectGuard _ hc hci, ?_⟩, ⟨hui, all_selectGuard _ hu hui, ?_⟩⟩
  · exact runRounds_selAfterNone dispatchClient noSelectE_dispatchClient rs s none
  · exact runRounds_selAfterNone dispatchUpload noSelectE_dispatchUpload rs s none

/-- Witness for C4: one round in which the engine suspends on a read
would-block (registering a read waker) before quiescing. -/
theorem claim4_witness :
    (((runClient cbInit [⟨[], [(true, SysRes.err EAGAIN)], true, false, false⟩]).events.all
        engineQuiesced) = true ∧
     ((runUpload cbInit [⟨[], [(true, SysRes.err EAGAIN)], true, false, false⟩]).events.all
        engineQuiesced) = true) ∧
    ((((runClient cbInit [⟨[], [(true, SysRes.err EAGAIN)], true, false, false⟩]).events.all
        selectInterestOk) = true ∧
      ((runClient cbInit [⟨[], [(true, SysRes.err EAGAIN)], true, false, false⟩]).events.all
        selectGuard) = true ∧
      selAfterNone (runClient cbInit
        [⟨[], [(true, SysRes.err EAGAIN)], true, false, false⟩]).events none = true) ∧
     (((runUpload cbInit [⟨[], [(true, SysRes.err EAGAIN)], true, false, false⟩]).events.all
        selectInterestOk) = true ∧
      ((runUpload cbInit [⟨[], [(true, SysRes.err EAGAIN)], true, false, false⟩]).events.all
        selectGuard) = true ∧
      selAfterNone (runUpload cbInit
        [⟨[], [(true, SysRes.err EAGAIN)], true, false, false⟩]).events none = true)) :=
  ⟨⟨by decide, by decide⟩,
   claim4_wait_guard_interest cbInit
     [⟨[], [(true, SysRes.err EAGAIN)], true, false, false⟩] (by decide) (by decide)⟩

/-- C10. `fluxio_waker_wake` is never handed an empty slot: every `wake`
event of every run of either program carries a non-`NULL` waker (the
direction is in the interest set only when its slot is occupied, and
`FD_ISSET` holds only for descriptors in the input set), and the fired
direction's slot is cleared by the wait phase, untouched directions keeping
their slot. -/
theorem claim10_wake_only_live (s c : CbState) (rs : List Round) (a b : Bool) :
    (((runClient s rs).events).all wakeLive) = true ∧
    (((runUpload s rs).events).all wakeLive) = true ∧
    (selectPhase c a b false).1.conn.read_waker
      = (if a && c.conn.read_waker.isSome then none else c.conn.read_waker) ∧
    (selectPhase c a b false).1.conn.write_waker
      = (if b && c.conn.write_waker.isSome then none else c.conn.write_waker) :=
  ⟨runRounds_all wakeLive dispatchClient dispatchClient_all_wakeLive
      (fun _ => rfl) selectPhase_wakeLive rs s,
   runRounds_all wakeLive dispatchUpload dispatchUpload_all_wakeLive
      (fun _ => rfl) selectPhase_wakeLive rs s,
   selectPhase_clear_read c a b,
   selectPhase_clear_write c a b⟩

/-! ## Error handling and exit behavior of the dispatchers -/

/-- Is this event a task push into the executor? -/
def isPush : Event → Bool
  | Event.pushed _ => true
  | _ => false

/-- Number of tasks a dispatch branch pushes. -/
def pushCount (evs : List Event) : Nat :=
  evs.countP (fun e => isPush e)

/-- Is this event the release of the extracted error object
(`fluxio_error_free`)? -/
def isFreeErr : Event → Bool
  | Event.freeErr => true
  | _ => false

/-- Does the output contain a numeric-error-code diagnostic line? -/
def hasCodeDiag (evs : List Event) : Bool :=
  evs.any (fun e =>
    match e with
    | Event.print (OutMsg.errCodeM _) => true
    | _ => false)

/-- C7. A handshake task completing with an error makes either program's
dispatcher go straight to the terminal error exit (`return 1`), never
constructing or pushing a send task; and an error-typed task at any tag
causes no task push at all (no retry). -/
theorem claim7_error_terminal_no_send (c : Nat) :
    (dispatchClient ⟨Tag.handshake, TaskType.taskError, c⟩).exit
      = some (ExitRes.code 1) ∧
    pushCount (dispatchClient ⟨Tag.handshake, TaskType.taskError, c⟩).events = 0 ∧
    (dispatchUpload ⟨Tag.handshake, TaskType.taskError, c⟩).exit
      = some (ExitRes.code 1) ∧
    pushCount (dispatchUpload ⟨Tag.handshake, TaskType.taskError, c⟩).events = 0 ∧
    (∀ tg, pushCount (dispatchClient ⟨tg, TaskType.taskError, c⟩).events = 0) ∧
    (∀ tg, pushCount (dispatchUpload ⟨tg, TaskType.taskError, c⟩).events = 0) := by
  refine ⟨rfl, rfl, rfl, rfl, ?_, ?_⟩ <;>
    (intro tg
     cases tg <;> simp [dispatchClient, dispatchUpload, pushCount, isPush])

/-- C8 counterexample. The claim says an erroring dispatch releases the open
wakers, the body state and the failing task before reporting; at a concrete
handshake error neither program frees the failing task and neither releases
the connection's wakers (`free_conn_data` is not reached) — the GET client
frees only the extracted error object. -/
theorem claim8_counterexample :
    (dispatchClient ⟨Tag.handshake, TaskType.taskError, 7⟩).exit
      = some (ExitRes.code 1) ∧
    Event.freeTask ∉ (dispatchClient ⟨Tag.handshake, TaskType.taskError, 7⟩).events ∧
    Event.freeConn ∉ (dispatchClient ⟨Tag.handshake, TaskType.taskError, 7⟩).events ∧
    (dispatchUpload ⟨Tag.handshake, TaskType.taskError, 7⟩).exit
      = some (ExitRes.code 1) ∧
    Event.freeTask ∉ (dispatchUpload ⟨Tag.handshake, TaskType.taskError, 7⟩).events ∧
    Event.freeConn ∉ (dispatchUpload ⟨Tag.handshake, TaskType.taskError, 7⟩).events := by
  decide

/-- C8 as amended. On an error at any tracked tag the dispatcher terminates
the request with exit status 1 without pushing further work; the GET client
releases exactly the extracted error object (once) and neither program
releases the failing task, the connection wakers, or body state on that path
(the upload program's error branches emit only prints); those resources are
reclaimed by process exit. -/
theorem claim8_error_path_releases (c : Nat) :
    (∀ tg, tg ≠ Tag.notSet →
      (dispatchClient ⟨tg, TaskType.taskError, c⟩).exit = some (ExitRes.code 1) ∧
      ((dispatchClient ⟨tg, TaskType.taskError, c⟩).events.countP
        (fun e => isFreeErr e)) = 1 ∧
      pushCount (dispatchClient ⟨tg, TaskType.taskError, c⟩).events = 0 ∧
      Event.freeTask ∉ (dispatchClient ⟨tg, TaskType.taskError, c⟩).events ∧
      Event.freeConn ∉ (dispatchClient ⟨tg, TaskType.taskError, c⟩).events) ∧
    (∀ tg, tg ≠ Tag.notSet →
      (dispatchUpload ⟨tg, TaskType.taskError, c⟩).exit = some (ExitRes.code 1) ∧
      pushCount (dispatchUpload ⟨tg, TaskType.taskError, c⟩).events = 0 ∧
      ∀ e ∈ (dispatchUpload ⟨tg, TaskType.taskError, c⟩).events,
        ∃ m, e = Event.print m) := by
  constructor
  · intro tg htg
    cases tg
    · exact absurd rfl htg
    · refine ⟨rfl, ?_, ?_, ?_, ?_⟩ <;>
        simp [dispatchClient, pushCount, isPush, isFreeErr]
    · refine ⟨rfl, ?_, ?_, ?_, ?_⟩ <;>
        simp [dispatchClient, pushCount, isPush, isFreeErr]
    · refine ⟨rfl, ?_, ?_, ?_, ?_⟩ <;>
        simp [dispatchClient, pushCount, isPush, isFreeErr]
  · intro tg htg
    cases tg
    · exact absurd rfl htg
    · refine ⟨rfl, ?_, ?_⟩
      · simp [dispatchUpload, pushCount, isPush]
      · intro e he
        simp [dispatchUpload] at he
        exact ⟨OutMsg.handshakeErrM, he⟩
    · refine ⟨rfl, ?_, ?_⟩
      · simp [dispatchUpload, pushCount, isPush]
      · intro e he
        simp [dispatchUpload] at he
        exact ⟨OutMsg.sendErrM, he⟩
    · refine ⟨rfl, ?_, ?_⟩
      · simp [dispatchUpload, pushCount, isPush]
      · intro e he
        simp [dispatchUpload] at he
        exact ⟨OutMsg.bodyErrM, he⟩

/-- Witness for C8 (amended) at the handshake tag with error code 7. -/
theorem claim8_witness :
    ((dispatchClient ⟨Tag.handshake, TaskType.taskError, 7⟩).exit
        = some (ExitRes.code 1) ∧
      ((dispatchClient ⟨Tag.handshake, TaskType.taskError, 7⟩).events.countP
        (fun e => isFreeErr e)) = 1 ∧
      pushCount (dispatchClient ⟨Tag.handshake, TaskType.taskError, 7⟩).events = 0 ∧
      Event.freeTask ∉ (dispatchClient ⟨Tag.handshake, TaskType.taskError, 7⟩).events ∧
      Event.freeConn ∉ (dispatchClient ⟨Tag.handshake, TaskType.taskError, 7⟩).events) ∧
    ((dispatchUpload ⟨Tag.handshake, TaskType.taskError, 7⟩).exit
        = some (ExitRes.code 1) ∧
      pushCount (dispatchUpload ⟨Tag.handshake, TaskType.taskError, 7⟩).events = 0 ∧
      ∀ e ∈ (dispatchUpload ⟨Tag.handshake, TaskType.taskError, 7⟩).events,
        ∃ m, e = Event.print m) :=
  ⟨(claim8_error_path_releases 7).1 Tag.handshake (by decide),
   (claim8_error_path_releases 7).2 Tag.handshake (by decide)⟩

/-- C9 counterexample. The claim says either driving program prints the
numeric error code plus the description on an engine-surfaced task failure
before exiting non-zero; the upload program's handshake-error branch exits 1
printing only the fixed phase message, with no numeric-code diagnostic. -/
theorem claim9_counterexample :
    (dispatchUpload ⟨Tag.handshake, TaskType.taskError, 7⟩).exit
      = some (ExitRes.code 1) ∧
    hasCodeDiag (dispatchUpload ⟨Tag.handshake, TaskType.taskError, 7⟩).events
      = false ∧
    (dispatchUpload ⟨Tag.handshake, TaskType.taskError, 7⟩).events
      = [Event.print OutMsg.handshakeErrM] := by
  decide

/-- C9 as amended. Both programs exit 0 at the success terminal and 1 on
task failures (and on `select` failure); on an engine-surfaced task failure
the GET client prints the numeric error code and the description before
exiting, while the upload program prints only a fixed phase message and
never a numeric-code diagnostic. -/
theorem claim9_exit_codes_diagnostics (c : Nat) :
    (dispatchClient ⟨Tag.respBody, TaskType.taskEmpty, c⟩).exit
      = some (ExitRes.code 0) ∧
    (dispatchUpload ⟨Tag.respBody, TaskType.taskEmpty, c⟩).exit
      = some (ExitRes.code 0) ∧
    (∀ tg, tg ≠ Tag.notSet →
      (dispatchClient ⟨tg, TaskType.taskError, c⟩).exit = some (ExitRes.code 1) ∧
      Event.print (OutMsg.errCodeM c)
        ∈ (dispatchClient ⟨tg, TaskType.taskError, c⟩).events ∧
      Event.print OutMsg.errDetailsM
        ∈ (dispatchClient ⟨tg, TaskType.taskError, c⟩).events) ∧
    (∀ tg, tg ≠ Tag.notSet →
      (dispatchUpload ⟨tg, TaskType.taskError, c⟩).exit = some (ExitRes.code 1)) ∧
    (∀ tg, hasCodeDiag (dispatchUpload ⟨tg, TaskType.taskError, c⟩).events
      = false) ∧
    (∀ (st : CbState) (a b : Bool),
      (selectPhase st a b true).2.2 = some (ExitRes.code 1)) := by
  refine ⟨rfl, rfl, ?_, ?_, ?_, ?_⟩
  · intro tg htg
    cases tg
    · exact absurd rfl htg
    · exact ⟨rfl, by simp [dispatchClient], by simp [dispatchClient]⟩
    · exact ⟨rfl, by simp [dispatchClient], by simp [dispatchClient]⟩
    · exact ⟨rfl, by simp [dispatchClient], by simp [dispatchClient]⟩
  · intro tg htg
    cases tg
    · exact absurd rfl htg
    · rfl
    · rfl
    · rfl
  · intro tg
    cases tg <;> simp [dispatchUpload, hasCodeDiag]
  · intro st a b
    rfl

/-- Witness for C9 (amended) at error code 7, the send tag, and a concrete
adapter state. -/
theorem claim9_witness :
    (dispatchClient ⟨Tag.respBody, TaskType.taskEmpty, 7⟩).exit
      = some (ExitRes.code 0) ∧
    ((dispatchClient ⟨Tag.send, TaskType.taskError, 7⟩).exit
        = some (ExitRes.code 1) ∧
      Event.print (OutMsg.errCodeM 7)
        ∈ (dispatchClient ⟨Tag.send, TaskType.taskError, 7⟩).events ∧
      Event.print OutMsg.errDetailsM
        ∈ (dispatchClient ⟨Tag.send, TaskType.taskError, 7⟩).events) ∧
    (dispatchUpload ⟨Tag.send, TaskType.taskError, 7⟩).exit
      = some (ExitRes.code 1) ∧
    hasCodeDiag (dispatchUpload ⟨Tag.send, TaskType.taskError, 7⟩).events = false ∧
    (selectPhase cbInit true true true).2.2 = some (ExitRes.code 1) :=
  ⟨(claim9_exit_codes_diagnostics 7).1,
   (claim9_exit_codes_diagnostics 7).2.2.1 Tag.send (by decide),
   (claim9_exit_codes_diagnostics 7).2.2.2.1 Tag.send (by decide),
   (claim9_exit_codes_diagnostics 7).2.2.2.2.1 Tag.send,
   (claim9_exit_codes_diagnostics 7).2.2.2.2.2 cbInit true true⟩

end Fluxio
